import Mathlib

/-!
Verification development for the healthcare synthetic-data pipeline
(`health_data_generation.py`).  The script generates fake patient,
EHR and claims records with the `random` module and a `faker` instance,
serializes them to CSV, newline-delimited JSON and Parquet, and uploads
the artifacts to cloud storage.

Randomness is modelled by an immutable environment `Env` of streams
(one value per draw index) together with a mutable `GenState` holding
the current draw position and the `faker` unique pool (the set of
values already returned by `fake.unique.uuid4`).  Every generator of
the source is translated into a Lean function threading `GenState`;
fallible operations (a `random.choice` on an empty list raises
`IndexError`, a dict subscript raises `KeyError`, exhaustion of the
unique pool raises faker's `UniquenessException`) return `Option`.
Python floats are modelled by exact rationals.
-/

namespace HealthPipeline

/-- Environment of randomness streams backing the global `random` module and
the global `fake : Faker` instance.  `nats i` backs the i-th integer draw
(`random.randint`, `random.choice` indices, `fake.date_between`), `rats i`
backs the i-th `random.uniform` draw (a fraction of the interval), `strs i`
backs the i-th non-unique faker string draw (names, zip codes), and
`uuids i` backs the i-th raw `uuid4` draw underlying `fake.unique.uuid4`.
`endDay` is the day index of `end_date = datetime.today()` counted from
`start_date = 2020-01-01` (day 0). -/
structure Env where
  nats : Nat → Nat
  rats : Nat → ℚ
  strs : Nat → String
  uuids : Nat → String
  endDay : Nat

/-- Mutable generation state: the number of raw draws consumed so far and
the unique pool of the `fake.unique` proxy (values already returned by
`fake.unique.uuid4`, newest first). -/
structure GenState where
  pos : Nat
  seen : List String
deriving DecidableEq, Repr

/-- Model of `random.randint(lo, hi)`: uniform integer in `[lo, hi]`. -/
def randint (env : Env) (lo hi : Nat) (g : GenState) : Nat × GenState :=
  (lo + env.nats g.pos % (hi + 1 - lo), ⟨g.pos + 1, g.seen⟩)

/-- Model of `random.choice(xs)`: raises `IndexError` (returns `none`) on an
empty list, otherwise returns an element of `xs`. -/
def choice {α : Type} (env : Env) (xs : List α) (g : GenState) :
    Option (α × GenState) :=
  if h : xs.length = 0 then none
  else
    some (xs.get ⟨env.nats g.pos % xs.length,
            Nat.mod_lt _ (Nat.pos_of_ne_zero h)⟩,
          ⟨g.pos + 1, g.seen⟩)

/-- Model of `random.uniform(lo, hi)`: `lo + (hi - lo) * r` for the next
fraction `r` of the `rats` stream (a genuine uniform draw has `r ∈ [0,1]`). -/
def uniform (env : Env) (lo hi : ℚ) (g : GenState) : ℚ × GenState :=
  (lo + (hi - lo) * env.rats g.pos, ⟨g.pos + 1, g.seen⟩)

/-- Model of a non-unique faker string draw (`fake.first_name()`,
`fake.last_name()`, `fake.zipcode()`). -/
def fakeStr (env : Env) (g : GenState) : String × GenState :=
  (env.strs g.pos, ⟨g.pos + 1, g.seen⟩)

/-- Model of `fake.date_between(start_date, end_date)`: a day index in
`[0, endDay]` counted from 2020-01-01. -/
def dateBetween (env : Env) (g : GenState) : Nat × GenState :=
  (env.nats g.pos % (env.endDay + 1), ⟨g.pos + 1, g.seen⟩)

/-- Retry budget of the faker `unique` proxy before it raises
`UniquenessException`. -/
def uniqueRetries : Nat := 1000

/-- Scan the raw uuid stream from position `pos` for a value outside the
unique pool `seen`, spending at most `fuel` attempts. -/
def findFresh (env : Env) (seen : List String) (pos : Nat) :
    Nat → Option (String × Nat)
  | 0 => none
  | fuel + 1 =>
    if env.uuids pos ∈ seen then findFresh env seen (pos + 1) fuel
    else some (env.uuids pos, pos + 1)

/-- Model of `fake.unique.uuid4()`: draw raw uuid4 values until one is not
in the unique pool, record it in the pool and return it; after
`uniqueRetries` collisions the proxy raises (returns `none`). -/
def fakeUniqueUuid4 (env : Env) (g : GenState) : Option (String × GenState) :=
  match findFresh env g.seen g.pos uniqueRetries with
  | none => none
  | some (v, p) => some (v, ⟨p, v :: g.seen⟩)

/-- Decimal digits of `n` as characters, most significant first, with
explicit fuel so that the recursion is structural (empty when the fuel or
`n` is zero). -/
def natDigitsGo : Nat → Nat → List Char
  | 0, _ => []
  | _, 0 => []
  | fuel + 1, n + 1 =>
    natDigitsGo fuel ((n + 1) / 10) ++ [Nat.digitChar ((n + 1) % 10)]

/-- Decimal rendering of a natural number (`n` itself is always enough
fuel, as the quotient by 10 shrinks faster than the fuel). -/
def renderNat (n : Nat) : String :=
  if n = 0 then "0" else ⟨natDigitsGo n n⟩

/-- Model of `str(date)` for a sampled day index: rendered as its decimal
day offset from 2020-01-01 (an opaque digit string standing for the ISO
date text). -/
def renderDate (d : Nat) : String := renderNat d

/-- Patient record as built by `generate_patients` (one dict of the
`patients` list); `registration_date` is stored as `str(...)`. -/
structure Patient where
  patient_id : String
  first_name : String
  last_name : String
  age : Nat
  gender : String
  zip_code : String
  insurance_type : String
  registration_date : String
deriving DecidableEq, Repr

/-- Body of the `generate_patients` loop: build one patient record. -/
def generatePatient (env : Env) (g : GenState) : Option (Patient × GenState) :=
  match fakeUniqueUuid4 env g with
  | none => none
  | some (pid, g1) =>
    let (fn, g2) := fakeStr env g1
    let (ln, g3) := fakeStr env g2
    let (age, g4) := randint env 0 100 g3
    match choice env (["Male", "Female"]) g4 with
    | none => none
    | some (gender, g5) =>
      let (zip, g6) := fakeStr env g5
      match choice env (["Private", "Medicare", "Medicaid"]) g6 with
      | none => none
      | some (ins, g7) =>
        let (rd, g8) := dateBetween env g7
        some ({ patient_id := pid, first_name := fn, last_name := ln,
                age := age, gender := gender, zip_code := zip,
                insurance_type := ins, registration_date := renderDate rd },
              g8)

/-- Model of `generate_patients(num_records)`: the loop appending one
patient per iteration (the resulting list is returned; the enclosing
DataFrame adds nothing to the data). -/
def generate_patients (env : Env) : Nat → GenState →
    Option (List Patient × GenState)
  | 0, g => some ([], g)
  | n + 1, g =>
    match generatePatient env g with
    | none => none
    | some (p, g') =>
      match generate_patients env n g' with
      | none => none
      | some (ps, g'') => some (p :: ps, g'')

/-! ### EHR generation and newline-delimited JSON -/

/-- Escape of one character inside a JSON string literal, as performed by
`json.dumps` (quote, backslash and control characters are escaped; no raw
control character ever reaches the output). -/
def jsonEscapeChar (c : Char) : List Char :=
  if c = '"' then ['\\', '"']
  else if c = '\\' then ['\\', '\\']
  else if c = '\n' then ['\\', 'n']
  else if c = '\r' then ['\\', 'r']
  else if c = '\t' then ['\\', 't']
  else if c.toNat < 32 then
    ['\\', 'u', '0', '0', Nat.digitChar (c.toNat / 16),
     Nat.digitChar (c.toNat % 16)]
  else [c]

/-- Escape every character of a string for a JSON string literal. -/
def jsonEscape (s : String) : String :=
  ⟨(s.data.map jsonEscapeChar).flatten⟩

/-- JSON string literal for `s` (quotes around the escaped body). -/
def jsonStr (s : String) : String :=
  "\"" ++ jsonEscape s ++ "\""

/-- Decimal rendering of a one-decimal float such as the rounded
`temperature`: the integer part, a dot, and the tenths digit (model of
Python's float `repr` for values that are exact multiples of 1/10). -/
def renderTenths (q : ℚ) : String :=
  if round (q * 10) < 0 then
    "-" ++ renderNat ((round (q * 10)).natAbs / 10) ++ "." ++
      renderNat ((round (q * 10)).natAbs % 10)
  else
    renderNat ((round (q * 10)).natAbs / 10) ++ "." ++
      renderNat ((round (q * 10)).natAbs % 10)

/-- Model of Python `round(x, 1)`: round to the nearest tenth. -/
def round1 (q : ℚ) : ℚ := ((round (q * 10) : ℤ) : ℚ) / 10

/-- Model of Python `round(x, 2)`: round to the nearest hundredth. -/
def round2 (q : ℚ) : ℚ := ((round (q * 100) : ℤ) : ℚ) / 100

/-- The fixed diagnosis lookup table of `generate_ehr` (the dict literal
mapping each diagnosis code to its description). -/
def diagnosisTable : List (String × String) :=
  [("E11.9", "Type 2 diabetes mellitus"),
   ("I10", "Essential hypertension"),
   ("J45", "Asthma"),
   ("N18.9", "Chronic kidney disease"),
   ("Z00.0", "General medical exam")]

/-- Model of a Python dict subscript `tbl[k]`: the value when the key is
present, `none` (a `KeyError`) otherwise. -/
def assocLookup (tbl : List (String × String)) (k : String) : Option String :=
  match tbl with
  | [] => none
  | (k', v) :: rest => if k' = k then some v else assocLookup rest k

/-- The random-choice set of diagnosis codes in `generate_ehr`. -/
def ehrDiagnosisCodes : List String := ["E11.9", "I10", "J45", "N18.9", "Z00.0"]

/-- One EHR visit record as built by the `generate_ehr` loop body
(`visit_date` is the sampled day index; the dict stores `str(visit_date)`,
applied in `dumpsEhr`). -/
structure EhrRecord where
  patient_id : String
  visit_date : Nat
  diagnosis_code : String
  diagnosis_desc : String
  heart_rate : Nat
  blood_pressure : String
  temperature : ℚ
deriving DecidableEq, Repr

/-- Model of `json.dumps(ehr_record)`: the dict keys in insertion order,
default separators, strings escaped, numbers rendered bare. -/
def dumpsEhr (r : EhrRecord) : String :=
  "\x7b\"patient_id\": " ++ jsonStr r.patient_id ++
  ", \"visit_date\": " ++ jsonStr (renderDate r.visit_date) ++
  ", \"diagnosis_code\": " ++ jsonStr r.diagnosis_code ++
  ", \"diagnosis_desc\": " ++ jsonStr r.diagnosis_desc ++
  ", \"heart_rate\": " ++ renderNat r.heart_rate ++
  ", \"blood_pressure\": " ++ jsonStr r.blood_pressure ++
  ", \"temperature\": " ++ renderTenths r.temperature ++ "\x7d"

/-- Body of the `generate_ehr` loop: build one visit record.  The
diagnosis code is drawn from `codes` and the description is the dict
subscript `diagnosis_desc_table[diagnosis_code]`, so a drawn code without
a table entry raises a `KeyError` (returns `none`). -/
def generateEhrRecord (env : Env) (codes pids : List String) (g : GenState) :
    Option (EhrRecord × GenState) :=
  match choice env pids g with
  | none => none
  | some (pid, g1) =>
    let (vd, g2) := dateBetween env g1
    match choice env codes g2 with
    | none => none
    | some (dc, g3) =>
      match assocLookup diagnosisTable dc with
      | none => none
      | some desc =>
        let (hr, g4) := randint env 60 100 g3
        let (sys, g5) := randint env 110 140 g4
        let (dia, g6) := randint env 70 90 g5
        let (tRaw, g7) := uniform env 97 (199 / 2) g6
        some ({ patient_id := pid, visit_date := vd, diagnosis_code := dc,
                diagnosis_desc := desc, heart_rate := hr,
                blood_pressure := renderNat sys ++ "/" ++ renderNat dia,
                temperature := round1 tRaw }, g7)

/-- The `generate_ehr` loop with the diagnosis-code choice set as a
parameter: each iteration builds a record and appends its
newline-delimited JSON unit `json.dumps(ehr_record)`. -/
def generate_ehr_with (env : Env) (codes : List String) :
    Nat → List String → GenState → Option (List String × GenState)
  | 0, _, g => some ([], g)
  | n + 1, pids, g =>
    match generateEhrRecord env codes pids g with
    | none => none
    | some (r, g') =>
      match generate_ehr_with env codes n pids g' with
      | none => none
      | some (us, g'') => some (dumpsEhr r :: us, g'')

/-- Model of `generate_ehr(num_records, patient_ids)` with the fixed
5-entry diagnosis choice set of the source. -/
def generate_ehr (env : Env) (n : Nat) (pids : List String) (g : GenState) :
    Option (List String × GenState) :=
  generate_ehr_with env ehrDiagnosisCodes n pids g

/-- Split a character list at every newline character (the separators are
consumed; `n` newlines yield `n + 1` chunks). -/
def splitNl : List Char → List (List Char)
  | [] => [[]]
  | c :: rest =>
    if c = '\n' then [] :: splitNl rest
    else
      match splitNl rest with
      | [] => [[c]]
      | u :: us => (c :: u) :: us

/-- Drop a single trailing empty chunk, mirroring how a line-oriented
reader (Python `str.splitlines`) counts the lines of a file: a final
newline does not open an extra empty line. -/
def stripLastBlank : List (List Char) → List (List Char)
  | [] => []
  | [u] => if u = [] then [] else [u]
  | u :: us => u :: stripLastBlank us

/-- The newline-separated units of a serialized payload (Python
`str.splitlines` for newline-only input). -/
def splitlines (s : String) : List String :=
  (stripLastBlank (splitNl s.data)).map fun l => ⟨l⟩

/-- Model of `"\n".join(data)` (line 94 of the source): the units joined
by a single newline between consecutive units, no trailing newline. -/
def joinNl : List String → String
  | [] => ""
  | [u] => u
  | u :: us => u ++ "\n" ++ joinNl us

/-! ### Claims generation, Arrow schema and Parquet serialization -/

/-- A `datetime` value at millisecond granularity: a calendar day (index
from 2020-01-01) and the milliseconds elapsed within that day. -/
structure DateTimeMs where
  day : Nat
  msOfDay : Nat
deriving DecidableEq, Repr

/-- Model of `datetime.combine(service_date, datetime.min.time())`: the
sampled day with a zero (midnight) time-of-day. -/
def datetimeCombineMidnight (d : Nat) : DateTimeMs := ⟨d, 0⟩

/-- Milliseconds of a `DateTimeMs` since day 0, as stored by a
`timestamp('ms')` column. -/
def DateTimeMs.toMs (t : DateTimeMs) : Nat := t.day * 86400000 + t.msOfDay

/-- One claims record as built by the `generate_claims` loop body. -/
structure Claim where
  claim_id : String
  patient_id : String
  provider_id : String
  service_date : DateTimeMs
  diagnosis_code : String
  procedure_code : String
  claim_amount : ℚ
  status : String
deriving DecidableEq, Repr

/-- The random-choice set of diagnosis codes in `generate_claims`
(a 4-entry subset). -/
def claimDiagnosisCodes : List String := ["E11.9", "I10", "J45", "N18.9"]

/-- The random-choice set of procedure codes in `generate_claims`. -/
def procedureCodes : List String := ["99213", "80053", "83036", "93000"]

/-- The random-choice set of claim statuses in `generate_claims`. -/
def statusChoices : List String := ["Paid", "Denied", "Pending"]

/-- Body of the `generate_claims` loop: build one claims record. -/
def generateClaim (env : Env) (pids : List String) (g : GenState) :
    Option (Claim × GenState) :=
  match fakeUniqueUuid4 env g with
  | none => none
  | some (cid, g1) =>
    match choice env pids g1 with
    | none => none
    | some (pid, g2) =>
      match fakeUniqueUuid4 env g2 with
      | none => none
      | some (prid, g3) =>
        let (sd, g4) := dateBetween env g3
        match choice env claimDiagnosisCodes g4 with
        | none => none
        | some (dc, g5) =>
          match choice env procedureCodes g5 with
          | none => none
          | some (pc, g6) =>
            let (amtRaw, g7) := uniform env 100 5000 g6
            match choice env statusChoices g7 with
            | none => none
            | some (st, g8) =>
              some ({ claim_id := cid, patient_id := pid,
                      provider_id := prid,
                      service_date := datetimeCombineMidnight sd,
                      diagnosis_code := dc, procedure_code := pc,
                      claim_amount := round2 amtRaw, status := st }, g8)

/-- The `generate_claims` loop: build the in-memory `claims` list. -/
def claimsLoop (env : Env) : Nat → List String → GenState →
    Option (List Claim × GenState)
  | 0, _, g => some ([], g)
  | n + 1, pids, g =>
    match generateClaim env pids g with
    | none => none
    | some (c, g') =>
      match claimsLoop env n pids g' with
      | none => none
      | some (cs, g'') => some (c :: cs, g'')

/-- Arrow column types used by the explicit claims schema. -/
inductive CellType where
  | str : CellType
  | timestampMs : CellType
  | float64 : CellType
deriving DecidableEq, Repr

/-- A typed cell value of an Arrow table. -/
inductive CellValue where
  | vStr : String → CellValue
  | vTs : Nat → CellValue
  | vF64 : ℚ → CellValue
deriving DecidableEq, Repr

/-- Whether a cell value carries exactly the given column type. -/
def cellHasType : CellValue → CellType → Bool
  | .vStr _, .str => true
  | .vTs _, .timestampMs => true
  | .vF64 _, .float64 => true
  | _, _ => false

/-- The explicit 8-column claims schema (`pa.schema([...])` of the
source, lines 205-214). -/
def claimsSchema : List (String × CellType) :=
  [("claim_id", .str),
   ("patient_id", .str),
   ("provider_id", .str),
   ("service_date", .timestampMs),
   ("diagnosis_code", .str),
   ("procedure_code", .str),
   ("claim_amount", .float64),
   ("status", .str)]

/-- Generic association-list lookup (a row's named cells, or the schema's
named types). -/
def assocFind {β : Type} (tbl : List (String × β)) (k : String) :
    Option β :=
  match tbl with
  | [] => none
  | (k', v) :: rest => if k' = k then some v else assocFind rest k

/-- The named, typed cells of one claims record, exactly as the dict of
the source (lines 193-202): strings via `str(...)`, the service date as
a millisecond timestamp, the amount via `float(...)`. -/
def claimToRow (c : Claim) : List (String × CellValue) :=
  [("claim_id", .vStr c.claim_id),
   ("patient_id", .vStr c.patient_id),
   ("provider_id", .vStr c.provider_id),
   ("service_date", .vTs c.service_date.toMs),
   ("diagnosis_code", .vStr c.diagnosis_code),
   ("procedure_code", .vStr c.procedure_code),
   ("claim_amount", .vF64 c.claim_amount),
   ("status", .vStr c.status)]

/-- Apply a fallible function to every element, failing as a whole if any
application fails. -/
def mapOpt {α β : Type} (f : α → Option β) : List α → Option (List β)
  | [] => some []
  | a :: as =>
    match f a, mapOpt f as with
    | some b, some bs => some (b :: bs)
    | _, _ => none

/-- An Arrow table: a declared schema and column-aligned rows of typed
cells. -/
structure ArrowTable where
  schema : List (String × CellType)
  rows : List (List CellValue)
deriving DecidableEq, Repr

/-- Extract from a named row the cell of every schema field, checking its
declared type; a missing or mismatched field fails (the schema is
enforced, never inferred from the data). -/
def rowToValues (schema : List (String × CellType))
    (row : List (String × CellValue)) : Option (List CellValue) :=
  mapOpt (fun f =>
    match assocFind row f.1 with
    | none => none
    | some v => if cellHasType v f.2 then some v else none) schema

/-- Model of `pa.Table.from_pandas(df, schema=schema)`: every row must
supply a type-correct cell for every schema field, else the construction
raises. -/
def tableFromRows (schema : List (String × CellType))
    (rows : List (List (String × CellValue))) : Option ArrowTable :=
  match mapOpt (rowToValues schema) rows with
  | none => none
  | some vss => some ⟨schema, vss⟩

/-- Model of `generate_claims(num_records, patient_ids)`: build the
claims list, then the Arrow table against the explicit schema. -/
def generate_claims (env : Env) (n : Nat) (pids : List String)
    (g : GenState) : Option (ArrowTable × GenState) :=
  match claimsLoop env n pids g with
  | none => none
  | some (cs, g') =>
    match tableFromRows claimsSchema (cs.map claimToRow) with
    | none => none
    | some t => some (t, g')

/-- Tokens of the serialized Parquet byte stream (model of the
self-describing columnar binary format written by `pq.write_table`). -/
inductive Tok where
  | tN : Nat → Tok
  | tS : String → Tok
  | tQ : ℚ → Tok
deriving DecidableEq, Repr

/-- Tag of a column type in the serialized schema. -/
def encCellType : CellType → Nat
  | .str => 0
  | .timestampMs => 1
  | .float64 => 2

/-- Decode a column-type tag. -/
def decCellType : Nat → Option CellType
  | 0 => some .str
  | 1 => some .timestampMs
  | 2 => some .float64
  | _ => none

/-- Serialize one typed cell. -/
def encCell : CellValue → List Tok
  | .vStr s => [.tN 0, .tS s]
  | .vTs m => [.tN 1, .tN m]
  | .vF64 q => [.tN 2, .tQ q]

/-- Decode one typed cell from the head of the stream. -/
def decCell : List Tok → Option (CellValue × List Tok)
  | .tN 0 :: .tS s :: rest => some (.vStr s, rest)
  | .tN 1 :: .tN m :: rest => some (.vTs m, rest)
  | .tN 2 :: .tQ q :: rest => some (.vF64 q, rest)
  | _ => none

/-- Serialize the schema fields (name and type tag per column). -/
def encFields : List (String × CellType) → List Tok
  | [] => []
  | (nm, ty) :: rest => Tok.tS nm :: Tok.tN (encCellType ty) :: encFields rest

/-- Decode `k` schema fields from the head of the stream. -/
def decFields : Nat → List Tok → Option (List (String × CellType) × List Tok)
  | 0, ts => some ([], ts)
  | k + 1, Tok.tS nm :: Tok.tN tyn :: rest =>
    match decCellType tyn with
    | none => none
    | some ty =>
      match decFields k rest with
      | none => none
      | some (fs, rest') => some ((nm, ty) :: fs, rest')
  | _ + 1, _ => none

/-- Serialize the cells of one row. -/
def encCells : List CellValue → List Tok
  | [] => []
  | v :: vs => encCell v ++ encCells vs

/-- Decode `k` cells from the head of the stream. -/
def decCells : Nat → List Tok → Option (List CellValue × List Tok)
  | 0, ts => some ([], ts)
  | k + 1, ts =>
    match decCell ts with
    | none => none
    | some (v, ts') =>
      match decCells k ts' with
      | none => none
      | some (vs, ts'') => some (v :: vs, ts'')

/-- Serialize all rows. -/
def encRows : List (List CellValue) → List Tok
  | [] => []
  | r :: rs => encCells r ++ encRows rs

/-- Decode `k` rows of the given width from the head of the stream. -/
def decRows (width : Nat) : Nat → List Tok →
    Option (List (List CellValue) × List Tok)
  | 0, ts => some ([], ts)
  | k + 1, ts =>
    match decCells width ts with
    | none => none
    | some (r, ts') =>
      match decRows width k ts' with
      | none => none
      | some (rs, ts'') => some (r :: rs, ts'')

/-- Model of `pq.write_table`: a self-describing stream with the column
count, the named typed columns, the row count and the row cells. -/
def writeParquet (t : ArrowTable) : List Tok :=
  (Tok.tN t.schema.length :: encFields t.schema) ++
    (Tok.tN t.rows.length :: encRows t.rows)

/-- Model of reading the Parquet payload back: recover the schema and the
typed rows, requiring the stream to be fully consumed. -/
def readParquet (ts : List Tok) : Option ArrowTable :=
  match ts with
  | Tok.tN ncols :: rest =>
    (match decFields ncols rest with
     | none => none
     | some (schema, rest2) =>
       match rest2 with
       | Tok.tN nrows :: rest3 =>
         (match decRows schema.length nrows rest3 with
          | none => none
          | some (rows, rest4) =>
            if rest4 = [] then some ⟨schema, rows⟩ else none)
       | _ => none)
  | _ => none

/-- The identifiers drawn by the claims loop, in draw order (each record
draws its `claim_id` first, then its `provider_id`). -/
def claimIdsOf : List Claim → List String
  | [] => []
  | c :: cs => c.claim_id :: c.provider_id :: claimIdsOf cs

/-! ### Storage gateway, upload and orchestration -/

/-- The payload handed to a blob upload: a string (CSV, NDJSON) or the
Parquet byte stream. -/
inductive Payload where
  | text : String → Payload
  | bytes : List Tok → Payload
deriving DecidableEq, Repr

/-- Effects requested from the storage gateway. -/
inductive GcsOp where
  | createBucket : GcsOp
  | deleteFolder : String → GcsOp
  | uploadBlob : String → String → Payload → String → GcsOp
deriving DecidableEq, Repr

/-- The `data` argument of `upload_to_gcs`: a patient DataFrame, a list
of pre-serialized JSON units, or an Arrow table. -/
inductive UploadData where
  | df : List Patient → UploadData
  | lines : List String → UploadData
  | table : ArrowTable → UploadData
deriving DecidableEq, Repr

/-- One CSV row of the patient DataFrame. -/
def patientCsvRow (p : Patient) : String :=
  p.patient_id ++ "," ++ p.first_name ++ "," ++ p.last_name ++ "," ++
    renderNat p.age ++ "," ++ p.gender ++ "," ++ p.zip_code ++ "," ++
    p.insurance_type ++ "," ++ p.registration_date

/-- Model of `data.to_csv(index=False)`: a header row followed by one row
per record, each line ended by a newline. -/
def patientsCsv (ps : List Patient) : String :=
  joinNl (("patient_id,first_name,last_name,age,gender,zip_code,insurance_type,registration_date") ::
    ps.map patientCsvRow) ++ "\n"

/-- The two progress messages printed by a completed `upload_to_gcs`
call (the second one reports the upload as done). -/
def uploadMsgs (filename fmt path : String) : List String :=
  ["Uploading " ++ filename ++ " in " ++ fmt ++ " format to GCS...",
   "Uploaded " ++ filename ++ " to " ++ path]

/-- Model of `upload_to_gcs(data, path, filename, file_format)`.  The
oracle `ok` tells which storage operations succeed; a failing operation
raises (returns `.error`).  An unrecognized `file_format` matches none of
the three branches: nothing is uploaded, no error is raised, and the
final completion message is still printed. -/
def upload_to_gcs (ok : GcsOp → Bool) (data : UploadData)
    (path filename file_format : String) :
    Except String (List GcsOp × List String) :=
  if file_format = "csv" then
    match data with
    | .df ps =>
      if ok (GcsOp.uploadBlob path filename (.text (patientsCsv ps))
          ("text/csv")) then
        .ok ([GcsOp.uploadBlob path filename (.text (patientsCsv ps))
          ("text/csv")], uploadMsgs filename file_format path)
      else .error ("upload failed")
    | _ => .error ("type error")
  else if file_format = "json" then
    match data with
    | .lines us =>
      if ok (GcsOp.uploadBlob path filename (.text (joinNl us))
          ("application/json")) then
        .ok ([GcsOp.uploadBlob path filename (.text (joinNl us))
          ("application/json")], uploadMsgs filename file_format path)
      else .error ("upload failed")
    | _ => .error ("type error")
  else if file_format = "parquet" then
    match data with
    | .table t =>
      if ok (GcsOp.uploadBlob path filename (.bytes (writeParquet t))
          ("application/octet-stream")) then
        .ok ([GcsOp.uploadBlob path filename (.bytes (writeParquet t))
          ("application/octet-stream")], uploadMsgs filename file_format path)
      else .error ("upload failed")
    | _ => .error ("type error")
  else .ok ([], uploadMsgs filename file_format path)

/-- Model of `create_bucket()`: the attempt is wrapped in
`try/except`, so a failure is logged and swallowed — the function never
raises, and contributes the operation only when it succeeded. -/
def create_bucket (ok : GcsOp → Bool) : List GcsOp × List String :=
  if ok GcsOp.createBucket then
    ([GcsOp.createBucket], ["bucket ready"])
  else ([], ["Error creating bucket"])

/-- Model of `empty_gcs_folder(path)`: delete everything under the
prefix; a failing delete raises (no handler). -/
def empty_gcs_folder (ok : GcsOp → Bool) (path : String) :
    Except String (List GcsOp) :=
  if ok (GcsOp.deleteFolder path) then .ok [GcsOp.deleteFolder path]
  else .error ("delete failed")

/-- Bucket and folder constants of the source. -/
def BUCKET_NAME : String := "healthcare-data-bucket-treadway"

/-- Destination folder of the dev pass. -/
def DEV_PATH : String := "dev/"

/-- Destination folder of the prod pass. -/
def PROD_PATH : String := "prod/"

/-- Record count of the dev pass. -/
def DEV_RECORDS : Nat := 5000

/-- Record count of the prod pass. -/
def PROD_RECORDS : Nat := 20000

/-- One generate-serialize-upload pass (clear the folder, generate the
three datasets, upload the three artifacts).  Returns the storage
operations performed and either the final generation state or the error
that aborted the pass; operations performed before the abort are kept
(nothing is rolled back). -/
def onePass (ok : GcsOp → Bool) (env : Env) (n : Nat) (path : String)
    (g : GenState) : List GcsOp × Except String GenState :=
  match empty_gcs_folder ok path with
  | .error e => ([], .error e)
  | .ok ops0 =>
    match generate_patients env n g with
    | none => (ops0, .error ("generation failed"))
    | some (ps, g1) =>
      match generate_ehr env n (ps.map Patient.patient_id) g1 with
      | none => (ops0, .error ("generation failed"))
      | some (us, g2) =>
        match generate_claims env n (ps.map Patient.patient_id) g2 with
        | none => (ops0, .error ("generation failed"))
        | some (t, g3) =>
          match upload_to_gcs ok (.df ps) path ("patient_data.csv")
              ("csv") with
          | .error e => (ops0, .error e)
          | .ok (ops1, _) =>
            match upload_to_gcs ok (.lines us) path ("ehr_data.json")
                ("json") with
            | .error e => (ops0 ++ ops1, .error e)
            | .ok (ops2, _) =>
              match upload_to_gcs ok (.table t) path
                  ("claims_data.parquet") ("parquet") with
              | .error e => (ops0 ++ ops1 ++ ops2, .error e)
              | .ok (ops3, _) => (ops0 ++ ops1 ++ ops2 ++ ops3, .ok g3)

/-- The main script with the two record counts as parameters: ensure the
bucket (failure swallowed), run the dev pass, then the prod pass. -/
def runMainWith (ok : GcsOp → Bool) (env : Env) (nDev nProd : Nat)
    (g : GenState) : List GcsOp × Except String GenState :=
  match onePass ok env nDev DEV_PATH g with
  | (opsD, .error e) => ((create_bucket ok).1 ++ opsD, .error e)
  | (opsD, .ok g1) =>
    match onePass ok env nProd PROD_PATH g1 with
    | (opsP, outcome) => ((create_bucket ok).1 ++ opsD ++ opsP, outcome)

/-- The main script execution with the source's record counts. -/
def runMain (ok : GcsOp → Bool) (env : Env) (g : GenState) :
    List GcsOp × Except String GenState :=
  runMainWith ok env DEV_RECORDS PROD_RECORDS g

/-- Oracle under which every storage operation succeeds. -/
def okAll : GcsOp → Bool := fun _ => true

/-- Oracle under which only bucket creation fails. -/
def okNoBucket : GcsOp → Bool
  | .createBucket => false
  | _ => true

/-- Oracle under which exactly the EHR uploads fail. -/
def okFailEhrUpload : GcsOp → Bool
  | .uploadBlob _ f _ _ => !(f == "ehr_data.json")
  | _ => true

/-- The opaque identifiers drawn across both passes of one program run,
in draw order: dev patient ids, dev claim and provider ids, prod patient
ids, prod claim and provider ids — all served by the single shared
`fake.unique.uuid4` pool. -/
def pipelineIds (env : Env) (n₁ n₂ : Nat) (g : GenState) :
    Option (List String) :=
  match generate_patients env n₁ g with
  | none => none
  | some (ps₁, g1) =>
    match generate_ehr env n₁ (ps₁.map Patient.patient_id) g1 with
    | none => none
    | some (_, g2) =>
      match claimsLoop env n₁ (ps₁.map Patient.patient_id) g2 with
      | none => none
      | some (cs₁, g3) =>
        match generate_patients env n₂ g3 with
        | none => none
        | some (ps₂, g4) =>
          match generate_ehr env n₂ (ps₂.map Patient.patient_id) g4 with
          | none => none
          | some (_, g5) =>
            match claimsLoop env n₂ (ps₂.map Patient.patient_id) g5 with
            | none => none
            | some (cs₂, _) =>
              some (ps₁.map Patient.patient_id ++ claimIdsOf cs₁ ++
                ps₂.map Patient.patient_id ++ claimIdsOf cs₂)

/-! ### Concrete inputs used by witnesses -/

/-- Concrete environment used to evaluate the generators on explicit
inputs: deterministic streams with pairwise-distinct raw uuid draws. -/
def wEnv : Env :=
  ⟨fun i => i, fun _ => 1 / 2, fun i => "s" ++ renderNat i,
   fun i => ⟨List.replicate (i + 1) 'u'⟩, 9⟩

/-- Initial generation state: no draws consumed, empty unique pool. -/
def wG0 : GenState := ⟨0, []⟩

/-- Result of generating three patients in the concrete environment. -/
def wPat3 : List Patient × GenState :=
  (generate_patients wEnv 3 wG0).getD ([], wG0)

/-- Result of generating two EHR units from two patient ids in the
concrete environment. -/
def wEhr2 : List String × GenState :=
  (generate_ehr wEnv 2 (["p1", "p2"]) wG0).getD ([], wG0)

/-- Five concrete patient identifiers for the end-to-end scenario. -/
def wPids5 : List String := ["pa", "pb", "pc", "pd", "pe"]

/-- Result of the claims loop on two records in the concrete
environment. -/
def wClaims2 : List Claim × GenState :=
  (claimsLoop wEnv 2 wPids5 wG0).getD ([], wG0)

/-- The named rows of the two concrete claims. -/
def wRows2 : List (List (String × CellValue)) := wClaims2.1.map claimToRow

/-- The Arrow table built from the two concrete claims. -/
def wTable2 : ArrowTable := (tableFromRows claimsSchema wRows2).getD ⟨[], []⟩

/-- Result of generating ten EHR units from the five identifiers. -/
def wEhr10 : List String × GenState :=
  (generate_ehr wEnv 10 wPids5 wG0).getD ([], wG0)

/-- Result of the claims loop on ten records, continuing the state of the
ten-unit EHR run. -/
def wClaimsL10 : List Claim × GenState :=
  (claimsLoop wEnv 10 wPids5 wEhr10.2).getD ([], wG0)

/-- The claims table of ten records, continuing the state of the ten-unit
EHR run. -/
def wClaimsT10 : ArrowTable × GenState :=
  (generate_claims wEnv 10 wPids5 wEhr10.2).getD (⟨[], []⟩, wG0)

/-- Environment whose raw uuid stream is constant, to exhibit exhaustion
of the unique pool. -/
def wEnvConstU : Env :=
  ⟨fun i => i, fun _ => 1 / 2, fun i => "s" ++ renderNat i,
   fun _ => "u", 9⟩

/-- State whose unique pool already contains the only raw uuid value. -/
def wGBad : GenState := ⟨0, ["u"]⟩

/-- One-patient dev-pass generation results in the concrete environment. -/
def wP1 : List Patient × GenState :=
  (generate_patients wEnv 1 wG0).getD ([], wG0)

/-- One-record dev EHR generation continuing `wP1`. -/
def wE1 : List String × GenState :=
  (generate_ehr wEnv 1 (wP1.1.map Patient.patient_id) wP1.2).getD ([], wG0)

/-- One-record dev claims table continuing `wE1`. -/
def wC1 : ArrowTable × GenState :=
  (generate_claims wEnv 1 (wP1.1.map Patient.patient_id) wE1.2).getD
    (⟨[], []⟩, wG0)

/-- One-patient prod-pass generation continuing `wC1`. -/
def wP2 : List Patient × GenState :=
  (generate_patients wEnv 1 wC1.2).getD ([], wG0)

/-- One-record prod EHR generation continuing `wP2`. -/
def wE2 : List String × GenState :=
  (generate_ehr wEnv 1 (wP2.1.map Patient.patient_id) wP2.2).getD ([], wG0)

/-- One-record prod claims table continuing `wE2`. -/
def wC2 : ArrowTable × GenState :=
  (generate_claims wEnv 1 (wP2.1.map Patient.patient_id) wE2.2).getD
    (⟨[], []⟩, wG0)

/-- All identifiers drawn by a two-record, two-pass pipeline run in the
concrete environment. -/
def wIds22 : List String := (pipelineIds wEnv 2 2 wG0).getD []

/-! ### Properties of the unique-identifier draw -/

theorem findFresh_spec (env : Env) (seen : List String) :
    ∀ (fuel pos : Nat) (v : String) (p : Nat),
      findFresh env seen pos fuel = some (v, p) → v ∉ seen ∧ pos < p := by
  intro fuel
  induction fuel with
  | zero => intro pos v p h; simp [findFresh] at h
  | succ fuel ih =>
    intro pos v p h
    rw [findFresh] at h
    by_cases hmem : env.uuids pos ∈ seen
    · rw [if_pos hmem] at h
      obtain ⟨hv, hp⟩ := ih (pos + 1) v p h
      exact ⟨hv, by omega⟩
    · rw [if_neg hmem] at h
      obtain ⟨hv, hp⟩ : env.uuids pos = v ∧ pos + 1 = p := by simpa using h
      subst hv
      exact ⟨hmem, by omega⟩

theorem fakeUniqueUuid4_spec (env : Env) (g : GenState) (v : String)
    (g' : GenState) (h : fakeUniqueUuid4 env g = some (v, g')) :
    v ∉ g.seen ∧ g'.seen = v :: g.seen ∧ g.pos < g'.pos := by
  unfold fakeUniqueUuid4 at h
  split at h
  · exact Option.noConfusion h
  · rename_i w p hf
    obtain ⟨hw, hg⟩ : w = v ∧ (⟨p, w :: g.seen⟩ : GenState) = g' := by
      simpa using h
    obtain ⟨hmem, hlt⟩ := findFresh_spec env g.seen uniqueRetries g.pos w p hf
    subst hw
    subst hg
    exact ⟨hmem, rfl, hlt⟩

theorem generatePatient_spec (env : Env) (g : GenState) (p : Patient)
    (g' : GenState) (h : generatePatient env g = some (p, g')) :
    p.patient_id ∉ g.seen ∧ g'.seen = p.patient_id :: g.seen ∧
      g.pos < g'.pos := by
  unfold generatePatient at h
  split at h
  · exact Option.noConfusion h
  · rename_i v g1 hu
    obtain ⟨hmem, hseen, hpos⟩ := fakeUniqueUuid4_spec env g v g1 hu
    simp only [fakeStr, randint, choice, dateBetween] at h
    norm_num at h
    obtain ⟨hp, hg⟩ := h
    subst hg
    rw [← hp]
    refine ⟨hmem, ?_, ?_⟩
    · simpa using hseen
    · simp only []
      omega

theorem generate_patients_spec (env : Env) :
    ∀ (n : Nat) (g : GenState) (ps : List Patient) (g' : GenState),
      generate_patients env n g = some (ps, g') →
      ps.length = n ∧
      g'.seen = (ps.map Patient.patient_id).reverse ++ g.seen ∧
      (ps.map Patient.patient_id).Nodup ∧
      (∀ i ∈ ps.map Patient.patient_id, i ∉ g.seen) ∧
      g.pos ≤ g'.pos := by
  intro n
  induction n with
  | zero =>
    intro g ps g' h
    obtain ⟨hps, hg⟩ : ps = [] ∧ g = g' := by
      have := (by simpa [generate_patients] using h :
        ([] : List Patient) = ps ∧ g = g')
      exact ⟨this.1.symm, this.2⟩
    subst hps; subst hg
    simp
  | succ n ih =>
    intro g ps g' h
    rw [generate_patients] at h
    split at h
    · exact Option.noConfusion h
    · rename_i p g1 hp
      split at h
      · exact Option.noConfusion h
      · rename_i ps1 g2 hrest
        obtain ⟨hps, hg⟩ : p :: ps1 = ps ∧ g2 = g' := by simpa using h
        subst hg
        rw [← hps]
        obtain ⟨hmem, hseen1, hpos1⟩ := generatePatient_spec env g p g1 hp
        obtain ⟨hlen, hseen2, hnodup, hfresh, hpos2⟩ := ih g1 ps1 g2 hrest
        refine ⟨by simp [hlen], ?_, ?_, ?_, by omega⟩
        · simp only [List.map_cons, List.reverse_cons, hseen2, hseen1]
          simp
        · refine List.nodup_cons.mpr ⟨?_, hnodup⟩
          intro hin
          exact hfresh p.patient_id hin
            (by rw [hseen1]; exact List.mem_cons_self _ _)
        · intro i hi
          simp only [List.map_cons, List.mem_cons] at hi
          rcases hi with hi1 | hi2
          · subst hi1; exact hmem
          · intro hsg
            exact hfresh i hi2
              (by rw [hseen1]; exact List.mem_cons_of_mem _ hsg)

/-- C1: for every record count, a successful `generate_patients` call
returns exactly that many patient records, and their `patient_id` values
are pairwise distinct (uniqueness enforced by the `fake.unique` pool,
which rejects collisions by construction). -/
theorem c1_patients_count_and_unique (env : Env) (n : Nat) (g : GenState)
    (ps : List Patient) (g' : GenState)
    (h : generate_patients env n g = some (ps, g')) :
    ps.length = n ∧ (ps.map Patient.patient_id).Nodup := by
  obtain ⟨hlen, _, hnodup, _, _⟩ := generate_patients_spec env n g ps g' h
  exact ⟨hlen, hnodup⟩

/-- Witness for C1 at the concrete input `n = 3`. -/
theorem c1_witness :
    wPat3.1.length = 3 ∧ (wPat3.1.map Patient.patient_id).Nodup :=
  c1_patients_count_and_unique wEnv 3 wG0 wPat3.1 wPat3.2 rfl

/-! ### Newline-freedom of serialized units -/

theorem some_pair_eq {α β : Type} {a c : α} {b d : β}
    (h : some (a, b) = some (c, d)) : a = c ∧ b = d := by
  obtain ⟨h1, h2⟩ := Prod.ext_iff.mp (Option.some.inj h)
  exact ⟨h1, h2⟩

theorem digitChar_ne_nl (d : Nat) : Nat.digitChar d ≠ '\n' := by
  by_cases h : d < 16
  · interval_cases d <;> decide
  · unfold Nat.digitChar
    rw [if_neg (show ¬ d = 0 by omega), if_neg (show ¬ d = 1 by omega),
      if_neg (show ¬ d = 2 by omega), if_neg (show ¬ d = 3 by omega),
      if_neg (show ¬ d = 4 by omega), if_neg (show ¬ d = 5 by omega),
      if_neg (show ¬ d = 6 by omega), if_neg (show ¬ d = 7 by omega),
      if_neg (show ¬ d = 8 by omega), if_neg (show ¬ d = 9 by omega),
      if_neg (show ¬ d = 0xa by omega), if_neg (show ¬ d = 0xb by omega),
      if_neg (show ¬ d = 0xc by omega), if_neg (show ¬ d = 0xd by omega),
      if_neg (show ¬ d = 0xe by omega), if_neg (show ¬ d = 0xf by omega)]
    decide

theorem natDigitsGo_ne_nl :
    ∀ (fuel n : Nat), ∀ c ∈ natDigitsGo fuel n, c ≠ '\n' := by
  intro fuel
  induction fuel with
  | zero => intro n c hc; simp [natDigitsGo] at hc
  | succ fuel ih =>
    intro n c hc
    cases n with
    | zero => simp [natDigitsGo] at hc
    | succ m =>
      rw [natDigitsGo] at hc
      rcases List.mem_append.mp hc with h1 | h2
      · exact ih _ c h1
      · have : c = Nat.digitChar ((m + 1) % 10) := by simpa using h2
        rw [this]; exact digitChar_ne_nl _

theorem renderNat_ne_nl (n : Nat) : ∀ c ∈ (renderNat n).data, c ≠ '\n' := by
  unfold renderNat
  split_ifs with h
  · intro c hc
    have h0 : ("0" : String).data = ['0'] := rfl
    rw [h0] at hc
    have : c = '0' := by simpa using hc
    rw [this]; decide
  · intro c hc
    exact natDigitsGo_ne_nl n n c hc

theorem jsonEscapeChar_ne_nl (c : Char) :
    ∀ c' ∈ jsonEscapeChar c, c' ≠ '\n' := by
  intro c' hc'
  unfold jsonEscapeChar at hc'
  split_ifs at hc' with h1 h2 h3 h4 h5 h6
  · rcases (by simpa using hc' : c' = '\\' ∨ c' = '"') with h | h <;>
      (rw [h]; decide)
  · have : c' = '\\' := by
      rcases (by simpa using hc' : c' = '\\' ∨ c' = '\\') with h | h <;>
        exact h
    rw [this]; decide
  · rcases (by simpa using hc' : c' = '\\' ∨ c' = 'n') with h | h <;>
      (rw [h]; decide)
  · rcases (by simpa using hc' : c' = '\\' ∨ c' = 'r') with h | h <;>
      (rw [h]; decide)
  · rcases (by simpa using hc' : c' = '\\' ∨ c' = 't') with h | h <;>
      (rw [h]; decide)
  · rcases (by simpa using hc' :
        c' = '\\' ∨ c' = 'u' ∨ c' = '0' ∨ c' = '0' ∨
        c' = Nat.digitChar (c.toNat / 16) ∨
        c' = Nat.digitChar (c.toNat % 16)) with h | h | h | h | h | h
    · rw [h]; decide
    · rw [h]; decide
    · rw [h]; decide
    · rw [h]; decide
    · rw [h]; exact digitChar_ne_nl _
    · rw [h]; exact digitChar_ne_nl _
  · have : c' = c := by simpa using hc'
    rw [this]
    intro hcn
    rw [hcn] at h6
    exact h6 (by decide)

theorem jsonEscape_ne_nl (s : String) : '\n' ∉ (jsonEscape s).data := by
  intro h
  have h' : '\n' ∈ (s.data.map jsonEscapeChar).flatten := h
  rcases List.mem_flatten.mp h' with ⟨l, hl, hc⟩
  rcases List.mem_map.mp hl with ⟨c, _, rfl⟩
  exact jsonEscapeChar_ne_nl c _ hc rfl

theorem nl_not_mem_append {a b : String} (ha : '\n' ∉ a.data)
    (hb : '\n' ∉ b.data) : '\n' ∉ (a ++ b).data := by
  rw [String.data_append]
  intro h
  rcases List.mem_append.mp h with h | h
  · exact ha h
  · exact hb h

theorem renderNat_not_nl (n : Nat) : '\n' ∉ (renderNat n).data := by
  intro h
  exact renderNat_ne_nl n _ h rfl

theorem jsonStr_not_nl (s : String) : '\n' ∉ (jsonStr s).data := by
  unfold jsonStr
  exact nl_not_mem_append (nl_not_mem_append (by decide) (jsonEscape_ne_nl s))
    (by decide)

theorem renderTenths_not_nl (q : ℚ) : '\n' ∉ (renderTenths q).data := by
  unfold renderTenths
  split_ifs
  · exact nl_not_mem_append
      (nl_not_mem_append
        (nl_not_mem_append (by decide) (renderNat_not_nl _))
        (by decide))
      (renderNat_not_nl _)
  · exact nl_not_mem_append
      (nl_not_mem_append (renderNat_not_nl _) (by decide))
      (renderNat_not_nl _)

theorem dumpsEhr_not_nl (r : EhrRecord) : '\n' ∉ (dumpsEhr r).data := by
  unfold dumpsEhr
  have t1 := nl_not_mem_append (a := "\x7b\"patient_id\": ")
    (by decide) (jsonStr_not_nl r.patient_id)
  have t2 := nl_not_mem_append t1 (b := ", \"visit_date\": ") (by decide)
  have t3 := nl_not_mem_append t2 (jsonStr_not_nl (renderDate r.visit_date))
  have t4 := nl_not_mem_append t3 (b := ", \"diagnosis_code\": ") (by decide)
  have t5 := nl_not_mem_append t4 (jsonStr_not_nl r.diagnosis_code)
  have t6 := nl_not_mem_append t5 (b := ", \"diagnosis_desc\": ") (by decide)
  have t7 := nl_not_mem_append t6 (jsonStr_not_nl r.diagnosis_desc)
  have t8 := nl_not_mem_append t7 (b := ", \"heart_rate\": ") (by decide)
  have t9 := nl_not_mem_append t8 (renderNat_not_nl r.heart_rate)
  have t10 := nl_not_mem_append t9 (b := ", \"blood_pressure\": ") (by decide)
  have t11 := nl_not_mem_append t10 (jsonStr_not_nl r.blood_pressure)
  have t12 := nl_not_mem_append t11 (b := ", \"temperature\": ") (by decide)
  have t13 := nl_not_mem_append t12 (renderTenths_not_nl r.temperature)
  exact nl_not_mem_append t13 (b := "\x7d") (by decide)

theorem append_data_ne_nil {a b : String} (ha : a.data ≠ []) :
    (a ++ b).data ≠ [] := by
  rw [String.data_append]
  intro h
  exact ha (List.append_eq_nil.mp h).1

theorem dumpsEhr_ne_empty (r : EhrRecord) : (dumpsEhr r).data ≠ [] := by
  unfold dumpsEhr
  repeat' apply append_data_ne_nil
  decide

/-! ### Joining and splitting newline-delimited payloads -/

theorem splitNl_ne_nil : ∀ cs : List Char, splitNl cs ≠ [] := by
  intro cs
  induction cs with
  | nil => simp [splitNl]
  | cons c rest ih =>
    rw [splitNl]
    split_ifs
    · simp
    · cases h : splitNl rest with
      | nil => simp [h]
      | cons u us => simp [h]

theorem splitNl_of_no_nl :
    ∀ u : List Char, '\n' ∉ u → splitNl u = [u] := by
  intro u
  induction u with
  | nil => intro _; rfl
  | cons c rest ih =>
    intro h
    have hc : c ≠ '\n' := fun e => h (e ▸ List.mem_cons_self c rest)
    rw [splitNl, if_neg hc, ih (fun hm => h (List.mem_cons_of_mem _ hm))]

theorem splitNl_append_nl :
    ∀ (u t : List Char), '\n' ∉ u →
      splitNl (u ++ '\n' :: t) = u :: splitNl t := by
  intro u
  induction u with
  | nil =>
    intro t _
    rw [List.nil_append, splitNl, if_pos rfl]
  | cons c rest ih =>
    intro t h
    have hc : c ≠ '\n' := fun e => h (e ▸ List.mem_cons_self c rest)
    rw [List.cons_append, splitNl, if_neg hc,
      ih t (fun hm => h (List.mem_cons_of_mem _ hm))]

theorem stripLastBlank_cons (x : List Char) (l : List (List Char))
    (h : l ≠ []) : stripLastBlank (x :: l) = x :: stripLastBlank l := by
  cases l with
  | nil => exact absurd rfl h
  | cons y ys => rfl

/-- Joining nonempty newline-free units and re-reading the payload line
by line recovers exactly the original units, for every unit count
(including zero). -/
theorem splitlines_joinNl :
    ∀ us : List String, (∀ u ∈ us, u.data ≠ [] ∧ '\n' ∉ u.data) →
      splitlines (joinNl us) = us := by
  intro us
  induction us with
  | nil => intro _; rfl
  | cons u vs ih =>
    intro h
    obtain ⟨hne, hnl⟩ := h u (List.mem_cons_self u vs)
    cases vs with
    | nil =>
      show splitlines u = [u]
      unfold splitlines
      rw [splitNl_of_no_nl u.data hnl]
      have : stripLastBlank [u.data] = [u.data] := by
        simp [stripLastBlank, hne]
      rw [this]
      rfl
    | cons w ws =>
      have hrest := ih (fun x hx => h x (List.mem_cons_of_mem _ hx))
      show splitlines (u ++ "\n" ++ joinNl (w :: ws)) = u :: w :: ws
      unfold splitlines
      have hdata : (u ++ "\n" ++ joinNl (w :: ws)).data =
          u.data ++ '\n' :: (joinNl (w :: ws)).data := by
        simp [String.data_append]
      rw [hdata, splitNl_append_nl u.data _ hnl,
        stripLastBlank_cons _ _ (splitNl_ne_nil _)]
      rw [List.map_cons]
      exact congrArg (fun l => u :: l) hrest

/-! ### EHR generation: structure of the produced units -/

theorem choice_spec {α : Type} (env : Env) (xs : List α) (g : GenState)
    (a : α) (g' : GenState) (h : choice env xs g = some (a, g')) :
    a ∈ xs ∧ g'.seen = g.seen ∧ g'.pos = g.pos + 1 := by
  unfold choice at h
  split_ifs at h with hlen
  obtain ⟨ha, hg⟩ := some_pair_eq h
  subst hg
  exact ⟨ha ▸ xs.get_mem _ _, rfl, rfl⟩

theorem generateEhrRecord_spec (env : Env) (codes pids : List String)
    (g : GenState) (r : EhrRecord) (g' : GenState)
    (h : generateEhrRecord env codes pids g = some (r, g')) :
    r.patient_id ∈ pids ∧ r.diagnosis_code ∈ codes ∧
      assocLookup diagnosisTable r.diagnosis_code = some r.diagnosis_desc ∧
      g'.seen = g.seen := by
  unfold generateEhrRecord at h
  split at h
  · exact Option.noConfusion h
  · rename_i pid g1 hc1
    simp only [dateBetween] at h
    split at h
    · exact Option.noConfusion h
    · rename_i dc g3 hc2
      split at h
      · exact Option.noConfusion h
      · rename_i desc hlk
        simp only [randint, uniform] at h
        obtain ⟨hr, hg⟩ := some_pair_eq h
        subst hg
        obtain ⟨hpid, hseen1, _⟩ := choice_spec env pids g pid g1 hc1
        obtain ⟨hdc, hseen2, _⟩ :=
          choice_spec env codes ⟨g1.pos + 1, g1.seen⟩ dc g3 hc2
        rw [← hr]
        refine ⟨hpid, hdc, ?_, ?_⟩
        · simpa using hlk
        · simp only []
          rw [hseen2]
          exact hseen1

theorem generate_ehr_with_spec (env : Env) (codes : List String) :
    ∀ (n : Nat) (pids : List String) (g : GenState) (us : List String)
      (g' : GenState),
      generate_ehr_with env codes n pids g = some (us, g') →
      us.length = n ∧ g'.seen = g.seen ∧
      ∀ u ∈ us, ∃ r : EhrRecord, u = dumpsEhr r ∧ r.patient_id ∈ pids ∧
        r.diagnosis_code ∈ codes ∧
        assocLookup diagnosisTable r.diagnosis_code = some r.diagnosis_desc := by
  intro n
  induction n with
  | zero =>
    intro pids g us g' h
    obtain ⟨hus, hg⟩ : ([] : List String) = us ∧ g = g' := by
      simpa [generate_ehr_with] using h
    rw [← hus]
    subst hg
    exact ⟨rfl, rfl, by simp⟩
  | succ n ih =>
    intro pids g us g' h
    rw [generate_ehr_with] at h
    split at h
    · exact Option.noConfusion h
    · rename_i r g1 hr
      split at h
      · exact Option.noConfusion h
      · rename_i us1 g2 hrest
        obtain ⟨hus, hg⟩ : dumpsEhr r :: us1 = us ∧ g2 = g' := by
          simpa using h
        subst hg
        rw [← hus]
        obtain ⟨hpid, hcode, hlk, hseen1⟩ :=
          generateEhrRecord_spec env codes pids g r g1 hr
        obtain ⟨hlen, hseen2, hform⟩ := ih pids g1 us1 g2 hrest
        refine ⟨by simp [hlen], by rw [hseen2, hseen1], ?_⟩
        intro u hu
        rcases List.mem_cons.mp hu with h1 | h2
        · exact ⟨r, h1, hpid, hcode, hlk⟩
        · exact hform u h2

/-- C6: a successful `generate_ehr` call on `K` records produces `K`
pre-serialized units, none of which contains an embedded newline, and
joining them with single newlines (`"\n".join`, as `upload_to_gcs` does
for the json format) yields a payload whose newline-separated units are
exactly the original `K` units. -/
theorem c6_ndjson_units (env : Env) (n : Nat) (pids : List String)
    (g : GenState) (us : List String) (g' : GenState)
    (h : generate_ehr env n pids g = some (us, g')) :
    us.length = n ∧ (∀ u ∈ us, '\n' ∉ u.data) ∧
      splitlines (joinNl us) = us := by
  obtain ⟨hlen, _, hform⟩ :=
    generate_ehr_with_spec env ehrDiagnosisCodes n pids g us g' h
  have hgood : ∀ u ∈ us, u.data ≠ [] ∧ '\n' ∉ u.data := by
    intro u hu
    obtain ⟨r, rfl, _⟩ := hform u hu
    exact ⟨dumpsEhr_ne_empty r, dumpsEhr_not_nl r⟩
  exact ⟨hlen, fun u hu => (hgood u hu).2, splitlines_joinNl us hgood⟩

/-- Witness for C6 at the concrete input `K = 2`. -/
theorem c6_witness :
    wEhr2.1.length = 2 ∧ (∀ u ∈ wEhr2.1, '\n' ∉ u.data) ∧
      splitlines (joinNl wEhr2.1) = wEhr2.1 :=
  c6_ndjson_units wEnv 2 (["p1", "p2"]) wG0 wEhr2.1 wEhr2.2 rfl

/-- C4: every EHR unit produced serializes a record whose
`diagnosis_desc` is exactly the table value for its `diagnosis_code`
(the mapping is the pure function `assocLookup diagnosisTable`); and if
the random-choice code set offers a code with no table entry, generating
a record that draws it fails with a `KeyError` (missing-mapping error)
instead of producing a record. -/
theorem c4_diagnosis_mapping :
    (∀ (env : Env) (n : Nat) (pids : List String) (g : GenState)
       (us : List String) (g' : GenState),
       generate_ehr env n pids g = some (us, g') →
       ∀ u ∈ us, ∃ r : EhrRecord, u = dumpsEhr r ∧
         assocLookup diagnosisTable r.diagnosis_code = some r.diagnosis_desc) ∧
    (∀ (env : Env) (code : String) (pids : List String) (g : GenState),
       assocLookup diagnosisTable code = none → pids ≠ [] →
       generate_ehr_with env [code] 1 pids g = none) := by
  constructor
  · intro env n pids g us g' h u hu
    obtain ⟨_, _, hform⟩ :=
      generate_ehr_with_spec env ehrDiagnosisCodes n pids g us g' h
    obtain ⟨r, hu', _, _, hlk⟩ := hform u hu
    exact ⟨r, hu', hlk⟩
  · intro env code pids g hlk hne
    have hrec : generateEhrRecord env [code] pids g = none := by
      unfold generateEhrRecord
      cases hch : choice env pids g with
      | none => rfl
      | some pg =>
        obtain ⟨pid, g1⟩ := pg
        simp only [dateBetween]
        have hc2 : choice env ([code])
            (⟨g1.pos + 1, g1.seen⟩ : GenState) =
            some (code, ⟨g1.pos + 2, g1.seen⟩) := by
          unfold choice
          rw [dif_neg (by simp)]
          simp [Nat.mod_one]
        rw [hc2]
        simp only [hlk]
    rw [generate_ehr_with, hrec]

/-- Witness for C4: the mapping half at the concrete two-unit run, and
the missing-mapping half at the concrete unmapped code `X99`. -/
theorem c4_witness :
    (∀ u ∈ wEhr2.1, ∃ r : EhrRecord, u = dumpsEhr r ∧
      assocLookup diagnosisTable r.diagnosis_code = some r.diagnosis_desc) ∧
    generate_ehr_with wEnv [("X99")] 1 (["p"]) wG0 = none :=
  ⟨c4_diagnosis_mapping.1 wEnv 2 (["p1", "p2"]) wG0 wEhr2.1 wEhr2.2 rfl,
   c4_diagnosis_mapping.2 wEnv ("X99") (["p"]) wG0 rfl (by decide)⟩

/-- C3 counterexample: with a record count of zero, requesting EHR
generation on an empty patient-identifier list does not fail — it
silently succeeds with an empty record list, so the claim's "for every
record count N" is false at `N = 0`. -/
theorem c3_counterexample :
    generate_ehr wEnv 0 [] wG0 = some ([], wG0) := rfl

/-- C3 (amended to positive record counts): requesting at least one EHR
record with an empty patient-identifier list fails with an explicit
error (the `random.choice` on the empty list raises `IndexError`),
rather than silently producing records. -/
theorem c3_empty_pids_fails (env : Env) (n : Nat) (g : GenState)
    (h : 1 ≤ n) : generate_ehr env n [] g = none := by
  cases n with
  | zero => omega
  | succ m => rfl

/-- Witness for C3 (amended) at the concrete input `n = 1`. -/
theorem c3_witness : 1 ≤ 1 ∧ generate_ehr wEnv 1 [] wG0 = none :=
  ⟨by decide, c3_empty_pids_fails wEnv 1 wG0 (by decide)⟩

/-! ### Claim amounts and service dates -/

theorem round_mono_q {x y : ℚ} (h : x ≤ y) : round x ≤ round y := by
  rw [round_eq, round_eq]
  exact Int.floor_mono (by linarith)

theorem round2_bounds {x : ℚ} (h1 : 100 ≤ x) (h2 : x ≤ 5000) :
    100 ≤ round2 x ∧ round2 x ≤ 5000 := by
  have hlo : (10000 : ℤ) ≤ round (x * 100) := by
    have h := round_mono_q (show ((10000 : ℤ) : ℚ) ≤ x * 100 by
      push_cast; linarith)
    rwa [round_intCast] at h
  have hhi : round (x * 100) ≤ (500000 : ℤ) := by
    have h := round_mono_q (show x * 100 ≤ ((500000 : ℤ) : ℚ) by
      push_cast; linarith)
    rwa [round_intCast] at h
  unfold round2
  constructor
  · rw [le_div_iff₀ (by norm_num : (0 : ℚ) < 100)]
    exact_mod_cast by exact_mod_cast hlo
  · rw [div_le_iff₀ (by norm_num : (0 : ℚ) < 100)]
    exact_mod_cast by exact_mod_cast hhi

theorem round2_cents (x : ℚ) : ∃ k : ℤ, round2 x * 100 = (k : ℚ) :=
  ⟨round (x * 100), by unfold round2; field_simp⟩

theorem generateClaim_ids (env : Env) (pids : List String) (g : GenState)
    (c : Claim) (g' : GenState) (h : generateClaim env pids g = some (c, g')) :
    c.claim_id ∉ g.seen ∧ c.provider_id ∉ g.seen ∧
      c.claim_id ≠ c.provider_id ∧
      g'.seen = c.provider_id :: c.claim_id :: g.seen ∧
      c.patient_id ∈ pids := by
  unfold generateClaim at h
  split at h
  · exact Option.noConfusion h
  · rename_i cid g1 hu1
    split at h
    · exact Option.noConfusion h
    · rename_i pid g2 hc1
      split at h
      · exact Option.noConfusion h
      · rename_i prid g3 hu2
        simp only [dateBetween] at h
        split at h
        · exact Option.noConfusion h
        · rename_i dc g5 hc2
          split at h
          · exact Option.noConfusion h
          · rename_i pc g6 hc3
            simp only [uniform] at h
            split at h
            · exact Option.noConfusion h
            · rename_i st g8 hc4
              obtain ⟨hc, hg⟩ := some_pair_eq h
              subst hg
              obtain ⟨hu1m, hu1s, _⟩ := fakeUniqueUuid4_spec env g cid g1 hu1
              obtain ⟨hpid, hc1s, _⟩ := choice_spec env pids g1 pid g2 hc1
              obtain ⟨hu2m, hu2s, _⟩ := fakeUniqueUuid4_spec env g2 prid g3 hu2
              obtain ⟨_, hc2s, _⟩ := choice_spec env claimDiagnosisCodes
                ⟨g3.pos + 1, g3.seen⟩ dc g5 hc2
              obtain ⟨_, hc3s, _⟩ := choice_spec env procedureCodes g5 pc g6 hc3
              obtain ⟨_, hc4s, _⟩ := choice_spec env statusChoices
                ⟨g6.pos + 1, g6.seen⟩ st g8 hc4
              have hseen3 : g3.seen = prid :: cid :: g.seen := by
                rw [hu2s, hc1s, hu1s]
              have hcid : c.claim_id = cid := by rw [← hc]
              have hprid : c.provider_id = prid := by rw [← hc]
              have hcpid : c.patient_id = pid := by rw [← hc]
              have hs8 : g8.seen = g6.seen := hc4s
              have hs5 : g5.seen = g3.seen := hc2s
              refine ⟨?_, ?_, ?_, ?_, ?_⟩
              · rw [hcid]; exact hu1m
              · rw [hprid]
                intro hmem
                exact hu2m (by rw [hc1s, hu1s]; exact List.mem_cons_of_mem _ hmem)
              · rw [hcid, hprid]
                intro heq
                exact hu2m (by rw [hc1s, hu1s, heq]; exact List.mem_cons_self _ _)
              · rw [hprid, hcid, hs8, hc3s, hs5, hseen3]
              · rw [hcpid]; exact hpid

theorem generateClaim_values (env : Env) (pids : List String) (g : GenState)
    (c : Claim) (g' : GenState)
    (hrand : ∀ i, 0 ≤ env.rats i ∧ env.rats i ≤ 1)
    (h : generateClaim env pids g = some (c, g')) :
    100 ≤ c.claim_amount ∧ c.claim_amount ≤ 5000 ∧
      (∃ k : ℤ, c.claim_amount * 100 = (k : ℚ)) ∧
      c.service_date.msOfDay = 0 := by
  unfold generateClaim at h
  split at h
  · exact Option.noConfusion h
  · rename_i cid g1 hu1
    split at h
    · exact Option.noConfusion h
    · rename_i pid g2 hc1
      split at h
      · exact Option.noConfusion h
      · rename_i prid g3 hu2
        simp only [dateBetween] at h
        split at h
        · exact Option.noConfusion h
        · rename_i dc g5 hc2
          split at h
          · exact Option.noConfusion h
          · rename_i pc g6 hc3
            simp only [uniform] at h
            split at h
            · exact Option.noConfusion h
            · rename_i st g8 hc4
              obtain ⟨hc, hg⟩ := some_pair_eq h
              subst hg
              rw [← hc]
              obtain ⟨hr0, hr1⟩ := hrand g6.pos
              have hlo : (100 : ℚ) ≤ 100 + (5000 - 100) * env.rats g6.pos := by
                nlinarith
              have hhi : 100 + (5000 - 100) * env.rats g6.pos ≤ 5000 := by
                nlinarith
              obtain ⟨hb1, hb2⟩ := round2_bounds hlo hhi
              exact ⟨hb1, hb2, round2_cents _, rfl⟩

theorem claimsLoop_ids_spec (env : Env) :
    ∀ (n : Nat) (pids : List String) (g : GenState) (cs : List Claim)
      (g' : GenState), claimsLoop env n pids g = some (cs, g') →
      cs.length = n ∧ g'.seen = (claimIdsOf cs).reverse ++ g.seen ∧
      (claimIdsOf cs).Nodup ∧ (∀ i ∈ claimIdsOf cs, i ∉ g.seen) ∧
      (∀ c ∈ cs, c.patient_id ∈ pids) := by
  intro n
  induction n with
  | zero =>
    intro pids g cs g' h
    obtain ⟨hcs, hg⟩ : ([] : List Claim) = cs ∧ g = g' := by
      simpa [claimsLoop] using h
    rw [← hcs]
    subst hg
    simp [claimIdsOf]
  | succ n ih =>
    intro pids g cs g' h
    rw [claimsLoop] at h
    split at h
    · exact Option.noConfusion h
    · rename_i c g1 hc
      split at h
      · exact Option.noConfusion h
      · rename_i cs1 g2 hrest
        obtain ⟨hcs, hg⟩ : c :: cs1 = cs ∧ g2 = g' := by simpa using h
        subst hg
        rw [← hcs]
        obtain ⟨hm1, hm2, hne, hseen1, hpid⟩ :=
          generateClaim_ids env pids g c g1 hc
        obtain ⟨hlen, hseen2, hnodup, hfresh, hpids⟩ := ih pids g1 cs1 g2 hrest
        have hsub : ∀ i ∈ claimIdsOf cs1, i ∉ g.seen := by
          intro i hi hg
          exact hfresh i hi
            (by rw [hseen1]
                exact List.mem_cons_of_mem _ (List.mem_cons_of_mem _ hg))
        refine ⟨by simp [claimIdsOf, hlen], ?_, ?_, ?_, ?_⟩
        · simp only [claimIdsOf, List.reverse_cons, hseen2, hseen1]
          simp
        · refine List.nodup_cons.mpr ⟨?_, List.nodup_cons.mpr ⟨?_, hnodup⟩⟩
          · intro hin
            rcases List.mem_cons.mp hin with h1 | h2
            · exact hne h1
            · exact hfresh c.claim_id h2
                (by rw [hseen1]
                    exact List.mem_cons_of_mem _ (List.mem_cons_self _ _))
          · intro hin
            exact hfresh c.provider_id hin
              (by rw [hseen1]; exact List.mem_cons_self _ _)
        · intro i hi
          rcases List.mem_cons.mp hi with h1 | h2
          · exact h1 ▸ hm1
          · rcases List.mem_cons.mp h2 with h3 | h4
            · exact h3 ▸ hm2
            · exact hsub i h4
        · intro x hx
          rcases List.mem_cons.mp hx with h1 | h2
          · exact h1 ▸ hpid
          · exact hpids x h2

theorem claimsLoop_values_spec (env : Env)
    (hrand : ∀ i, 0 ≤ env.rats i ∧ env.rats i ≤ 1) :
    ∀ (n : Nat) (pids : List String) (g : GenState) (cs : List Claim)
      (g' : GenState), claimsLoop env n pids g = some (cs, g') →
      ∀ c ∈ cs, 100 ≤ c.claim_amount ∧ c.claim_amount ≤ 5000 ∧
        (∃ k : ℤ, c.claim_amount * 100 = (k : ℚ)) ∧
        c.service_date.msOfDay = 0 := by
  intro n
  induction n with
  | zero =>
    intro pids g cs g' h c hcmem
    obtain ⟨hcs, _⟩ : ([] : List Claim) = cs ∧ g = g' := by
      simpa [claimsLoop] using h
    rw [← hcs] at hcmem
    simp at hcmem
  | succ n ih =>
    intro pids g cs g' h c hcmem
    rw [claimsLoop] at h
    split at h
    · exact Option.noConfusion h
    · rename_i c1 g1 hc
      split at h
      · exact Option.noConfusion h
      · rename_i cs1 g2 hrest
        obtain ⟨hcs, _⟩ : c1 :: cs1 = cs ∧ g2 = g' := by simpa using h
        rw [← hcs] at hcmem
        rcases List.mem_cons.mp hcmem with h1 | h2
        · exact h1 ▸ generateClaim_values env pids g c1 g1 hrand hc
        · exact ih pids g1 cs1 g2 hrest c h2

/-- C5: every claims record produced carries a `claim_amount` in the
closed interval [100, 5000] with exactly two decimal digits (one hundred
times the amount is an integer), its `service_date` is the sampled
calendar day combined with a zero (midnight) time-of-day, and the row
stores it under the millisecond-timestamp column declared by the schema. -/
theorem c5_claim_amount_service_date (env : Env) (n : Nat)
    (pids : List String) (g : GenState) (cs : List Claim) (g' : GenState)
    (hrand : ∀ i, 0 ≤ env.rats i ∧ env.rats i ≤ 1)
    (h : claimsLoop env n pids g = some (cs, g')) :
    assocFind claimsSchema ("service_date") = some CellType.timestampMs ∧
    ∀ c ∈ cs, 100 ≤ c.claim_amount ∧ c.claim_amount ≤ 5000 ∧
      (∃ k : ℤ, c.claim_amount * 100 = (k : ℚ)) ∧
      c.service_date = datetimeCombineMidnight c.service_date.day ∧
      assocFind (claimToRow c) ("service_date") =
        some (CellValue.vTs (c.service_date.day * 86400000)) := by
  refine ⟨rfl, ?_⟩
  intro c hcmem
  obtain ⟨h1, h2, h3, h4⟩ :=
    claimsLoop_values_spec env hrand n pids g cs g' h c hcmem
  refine ⟨h1, h2, h3, ?_, ?_⟩
  · unfold datetimeCombineMidnight
    cases hsd : c.service_date with
    | mk d ms =>
      rw [hsd] at h4
      simp at h4
      simp [h4]
  · have : assocFind (claimToRow c) ("service_date") =
        some (CellValue.vTs c.service_date.toMs) := rfl
    rw [this]
    unfold DateTimeMs.toMs
    simp [h4]

/-- Witness for C5 at the concrete two-record claims run. -/
theorem c5_witness :
    assocFind claimsSchema ("service_date") = some CellType.timestampMs ∧
    ∀ c ∈ wClaims2.1, 100 ≤ c.claim_amount ∧ c.claim_amount ≤ 5000 ∧
      (∃ k : ℤ, c.claim_amount * 100 = (k : ℚ)) ∧
      c.service_date = datetimeCombineMidnight c.service_date.day ∧
      assocFind (claimToRow c) ("service_date") =
        some (CellValue.vTs (c.service_date.day * 86400000)) :=
  c5_claim_amount_service_date wEnv 2 wPids5 wG0 wClaims2.1 wClaims2.2
    (fun _ => ⟨by show (0 : ℚ) ≤ 1 / 2; norm_num,
               by show (1 : ℚ) / 2 ≤ 1; norm_num⟩) rfl

/-! ### Schema enforcement and Parquet round-trip -/

theorem mapOpt_forall2 {α β : Type} (f : α → Option β) :
    ∀ (xs : List α) (ys : List β), mapOpt f xs = some ys →
      List.Forall₂ (fun y x => f x = some y) ys xs := by
  intro xs
  induction xs with
  | nil =>
    intro ys h
    have hys : ([] : List β) = ys := by simpa [mapOpt] using h
    rw [← hys]
    exact List.Forall₂.nil
  | cons a as ih =>
    intro ys h
    rw [mapOpt] at h
    split at h
    · rename_i b bs hfa hmas
      have hys : b :: bs = ys := by simpa using h
      rw [← hys]
      exact List.Forall₂.cons hfa (ih bs hmas)
    · exact Option.noConfusion h

theorem forall2_mem_left {α β : Type} {R : α → β → Prop} :
    ∀ {as : List α} {bs : List β}, List.Forall₂ R as bs →
      ∀ a ∈ as, ∃ b, R a b := by
  intro as bs h
  induction h with
  | nil => intro a ha; exact absurd ha (List.not_mem_nil a)
  | cons hR _ ih =>
    intro a ha
    rcases List.mem_cons.mp ha with rfl | hm
    · exact ⟨_, hR⟩
    · exact ih a hm

theorem rowToValues_types (schema : List (String × CellType))
    (row : List (String × CellValue)) (vs : List CellValue)
    (h : rowToValues schema row = some vs) :
    List.Forall₂ (fun v f => cellHasType v f.2 = true) vs schema := by
  have h2 := mapOpt_forall2 _ schema vs h
  refine h2.imp ?_
  intro v f hf
  have hf' : (match assocFind row f.1 with
      | none => none
      | some w => if cellHasType w f.2 then some w else none) = some v := hf
  cases ha : assocFind row f.1 with
  | none => rw [ha] at hf'; exact Option.noConfusion hf'
  | some w =>
    rw [ha] at hf'
    have hf2 : (if cellHasType w f.2 = true then some w else none) =
        some v := hf'
    by_cases ht : cellHasType w f.2 = true
    · rw [if_pos ht] at hf2
      have hv : w = v := Option.some.inj hf2
      rw [← hv]
      exact ht
    · rw [if_neg ht] at hf2
      exact Option.noConfusion hf2

theorem tableFromRows_spec (schema : List (String × CellType))
    (rows : List (List (String × CellValue))) (t : ArrowTable)
    (h : tableFromRows schema rows = some t) :
    t.schema = schema ∧ t.rows.length = rows.length ∧
      ∀ r ∈ t.rows, List.Forall₂ (fun v f => cellHasType v f.2 = true)
        r schema := by
  unfold tableFromRows at h
  split at h
  · exact Option.noConfusion h
  · rename_i vss hm
    have ht : (⟨schema, vss⟩ : ArrowTable) = t := by simpa using h
    rw [← ht]
    have h2 := mapOpt_forall2 _ rows vss hm
    refine ⟨rfl, h2.length_eq, ?_⟩
    intro r hr
    obtain ⟨row, hrow⟩ := forall2_mem_left h2 r hr
    exact rowToValues_types schema row r hrow

theorem decCellType_enc (ty : CellType) :
    decCellType (encCellType ty) = some ty := by cases ty <;> rfl

theorem decCell_enc (v : CellValue) (ts : List Tok) :
    decCell (encCell v ++ ts) = some (v, ts) := by cases v <;> rfl

theorem decCells_enc : ∀ (vs : List CellValue) (ts : List Tok),
    decCells vs.length (encCells vs ++ ts) = some (vs, ts) := by
  intro vs
  induction vs with
  | nil => intro ts; rfl
  | cons v vs ih =>
    intro ts
    show decCells (vs.length + 1) ((encCell v ++ encCells vs) ++ ts) = _
    simp only [List.append_assoc, decCells, decCell_enc, ih]

theorem decFields_enc : ∀ (fs : List (String × CellType)) (ts : List Tok),
    decFields fs.length (encFields fs ++ ts) = some (fs, ts) := by
  intro fs
  induction fs with
  | nil => intro ts; rfl
  | cons f fs ih =>
    intro ts
    obtain ⟨nm, ty⟩ := f
    show decFields (fs.length + 1)
      (Tok.tS nm :: Tok.tN (encCellType ty) :: (encFields fs ++ ts)) = _
    simp only [decFields, decCellType_enc, ih]

theorem decRows_enc (width : Nat) :
    ∀ (rs : List (List CellValue)) (ts : List Tok),
      (∀ r ∈ rs, r.length = width) →
      decRows width rs.length (encRows rs ++ ts) = some (rs, ts) := by
  intro rs
  induction rs with
  | nil => intro ts _; rfl
  | cons r rs ih =>
    intro ts hw
    have hr : r.length = width := hw r (List.mem_cons_self r rs)
    show decRows width (rs.length + 1) ((encCells r ++ encRows rs) ++ ts) = _
    have h1 : decCells width (encCells r ++ (encRows rs ++ ts)) =
        some (r, encRows rs ++ ts) := by
      rw [← hr]
      exact decCells_enc r _
    simp only [List.append_assoc, decRows, h1,
      ih ts (fun x hx => hw x (List.mem_cons_of_mem _ hx))]

theorem readParquet_writeParquet (t : ArrowTable)
    (hw : ∀ r ∈ t.rows, r.length = t.schema.length) :
    readParquet (writeParquet t) = some t := by
  have h2 : decRows t.schema.length t.rows.length (encRows t.rows) =
      some (t.rows, []) := by
    have h := decRows_enc t.schema.length t.rows [] hw
    simpa using h
  unfold writeParquet readParquet
  simp only [List.cons_append, decFields_enc, h2]
  rw [if_pos trivial]

theorem generate_claims_spec (env : Env) (n : Nat) (pids : List String)
    (g : GenState) (t : ArrowTable) (g' : GenState)
    (h : generate_claims env n pids g = some (t, g')) :
    t.schema = claimsSchema ∧ t.rows.length = n ∧
      ∀ r ∈ t.rows, List.Forall₂ (fun v f => cellHasType v f.2 = true)
        r claimsSchema := by
  unfold generate_claims at h
  split at h
  · exact Option.noConfusion h
  · rename_i cs g1 hcl
    split at h
    · exact Option.noConfusion h
    · rename_i t1 htab
      obtain ⟨ht, hg⟩ := some_pair_eq h
      obtain ⟨hs, hl, hrows⟩ :=
        tableFromRows_spec claimsSchema (cs.map claimToRow) t1 htab
      obtain ⟨hlen, _, _, _, _⟩ := claimsLoop_ids_spec env n pids g cs g1 hcl
      rw [← ht]
      exact ⟨hs, by rw [hl, List.length_map, hlen], hrows⟩

/-- C7: the claims table is only ever built against the explicit
8-column typed schema — a table accepted by the builder carries that
schema and every cell of every row matches its column's declared type
(mismatches are rejected, never inferred) — and columnar serialization
round-trips: writing any table produced by `generate_claims` and reading
it back yields the identical typed table. -/
theorem c7_schema_enforced_roundtrip :
    (∀ (rows : List (List (String × CellValue))) (t : ArrowTable),
       tableFromRows claimsSchema rows = some t →
       t.schema = claimsSchema ∧ claimsSchema.length = 8 ∧
       ∀ r ∈ t.rows, List.Forall₂ (fun v f => cellHasType v f.2 = true)
         r claimsSchema) ∧
    (∀ (env : Env) (n : Nat) (pids : List String) (g : GenState)
       (t : ArrowTable) (g' : GenState),
       generate_claims env n pids g = some (t, g') →
       readParquet (writeParquet t) = some t) := by
  constructor
  · intro rows t h
    obtain ⟨hs, _, hrows⟩ := tableFromRows_spec claimsSchema rows t h
    exact ⟨hs, rfl, hrows⟩
  · intro env n pids g t g' h
    obtain ⟨hs, _, hrows⟩ := generate_claims_spec env n pids g t g' h
    refine readParquet_writeParquet t ?_
    intro r hr
    have hlen := (hrows r hr).length_eq
    rw [hlen, hs]

/-- Witness for C7 at the concrete two-claim table. -/
theorem c7_witness :
    (wTable2.schema = claimsSchema ∧ claimsSchema.length = 8 ∧
      ∀ r ∈ wTable2.rows,
        List.Forall₂ (fun v f => cellHasType v f.2 = true) r claimsSchema) ∧
    readParquet (writeParquet wTable2) = some wTable2 :=
  ⟨c7_schema_enforced_roundtrip.1 wRows2 wTable2 rfl,
   c7_schema_enforced_roundtrip.2 wEnv 2 wPids5 wG0 wTable2 wClaims2.2 rfl⟩

/-- C2: every EHR unit and every claims record produced from a supplied
patient-identifier list carries a `patient_id` drawn from that list; and
in the end-to-end scenario of 10 EHR records and 10 claims generated
against 5 patient identifiers, exactly 10 units and a claims table of
exactly 10 rows and 8 columns are produced. -/
theorem c2_foreign_keys_and_scenario :
    (∀ (env : Env) (n : Nat) (pids : List String) (g : GenState)
       (us : List String) (g' : GenState),
       generate_ehr env n pids g = some (us, g') →
       ∀ u ∈ us, ∃ r : EhrRecord, u = dumpsEhr r ∧ r.patient_id ∈ pids) ∧
    (∀ (env : Env) (n : Nat) (pids : List String) (g : GenState)
       (cs : List Claim) (g' : GenState),
       claimsLoop env n pids g = some (cs, g') →
       ∀ c ∈ cs, c.patient_id ∈ pids) ∧
    (∀ (env : Env) (pids : List String) (g : GenState) (us : List String)
       (g1 : GenState) (t : ArrowTable) (g2 : GenState),
       pids.length = 5 → generate_ehr env 10 pids g = some (us, g1) →
       generate_claims env 10 pids g1 = some (t, g2) →
       us.length = 10 ∧ t.rows.length = 10 ∧ t.schema.length = 8) := by
  refine ⟨?_, ?_, ?_⟩
  · intro env n pids g us g' h u hu
    obtain ⟨_, _, hform⟩ :=
      generate_ehr_with_spec env ehrDiagnosisCodes n pids g us g' h
    obtain ⟨r, hu', hpid, _, _⟩ := hform u hu
    exact ⟨r, hu', hpid⟩
  · intro env n pids g cs g' h
    exact (claimsLoop_ids_spec env n pids g cs g' h).2.2.2.2
  · intro env pids g us g1 t g2 _ hE hC
    obtain ⟨hlenE, _, _⟩ :=
      generate_ehr_with_spec env ehrDiagnosisCodes 10 pids g us g1 hE
    obtain ⟨hs, hlenC, _⟩ := generate_claims_spec env 10 pids g1 t g2 hC
    refine ⟨hlenE, hlenC, ?_⟩
    rw [hs]
    rfl

/-- Witness for C2: the end-to-end scenario evaluated at five concrete
identifiers with ten records of each kind. -/
theorem c2_witness :
    (∀ u ∈ wEhr10.1, ∃ r : EhrRecord,
      u = dumpsEhr r ∧ r.patient_id ∈ wPids5) ∧
    (∀ c ∈ wClaimsL10.1, c.patient_id ∈ wPids5) ∧
    (wEhr10.1.length = 10 ∧ wClaimsT10.1.rows.length = 10 ∧
      wClaimsT10.1.schema.length = 8) :=
  ⟨c2_foreign_keys_and_scenario.1 wEnv 10 wPids5 wG0 wEhr10.1 wEhr10.2 rfl,
   c2_foreign_keys_and_scenario.2.1 wEnv 10 wPids5 wEhr10.2 wClaimsL10.1
     wClaimsL10.2 rfl,
   c2_foreign_keys_and_scenario.2.2 wEnv wPids5 wG0 wEhr10.1 wEhr10.2
     wClaimsT10.1 wClaimsT10.2 rfl rfl rfl⟩

/-! ### Upload dispatch and error classes -/

/-- C9: calling `upload_to_gcs` with a format tag other than csv, json
or parquet matches none of the serialization branches: nothing is
uploaded, no error is raised, and the completion message is still
printed. -/
theorem c9_unknown_format_noop (ok : GcsOp → Bool) (data : UploadData)
    (path filename fmt : String) (h1 : fmt ≠ "csv") (h2 : fmt ≠ "json")
    (h3 : fmt ≠ "parquet") :
    upload_to_gcs ok data path filename fmt =
      .ok ([], uploadMsgs filename fmt path) := by
  unfold upload_to_gcs
  rw [if_neg h1, if_neg h2, if_neg h3]

/-- Witness for C9 at the concrete unknown format `avro`. -/
theorem c9_witness :
    upload_to_gcs okAll (.lines []) ("dev/") ("x.json") ("avro") =
      .ok ([], uploadMsgs ("x.json") ("avro") ("dev/")) :=
  c9_unknown_format_noop okAll (.lines []) ("dev/") ("x.json") ("avro")
    (by decide) (by decide) (by decide)

/-- C8: the two error classes of the run.  With every non-setup
operation succeeding, a bucket-creation failure is swallowed: the run
still clears both folders, performs all six uploads and finishes
cleanly.  An upload failure (here: the EHR upload) propagates: the run
stops with the error, operations performed before it are kept (no
rollback) and nothing after it is attempted (no retry).  A generation
failure likewise propagates and aborts the run. -/
theorem c8_error_classes (env : Env) (n₁ n₂ : Nat) (g : GenState)
    (ps₁ : List Patient) (g1 : GenState) (us₁ : List String) (g2 : GenState)
    (t₁ : ArrowTable) (g3 : GenState) (ps₂ : List Patient) (g4 : GenState)
    (us₂ : List String) (g5 : GenState) (t₂ : ArrowTable) (g6 : GenState)
    (hp₁ : generate_patients env n₁ g = some (ps₁, g1))
    (he₁ : generate_ehr env n₁ (ps₁.map Patient.patient_id) g1 =
      some (us₁, g2))
    (hc₁ : generate_claims env n₁ (ps₁.map Patient.patient_id) g2 =
      some (t₁, g3))
    (hp₂ : generate_patients env n₂ g3 = some (ps₂, g4))
    (he₂ : generate_ehr env n₂ (ps₂.map Patient.patient_id) g4 =
      some (us₂, g5))
    (hc₂ : generate_claims env n₂ (ps₂.map Patient.patient_id) g5 =
      some (t₂, g6)) :
    runMainWith okNoBucket env n₁ n₂ g =
      ([GcsOp.deleteFolder DEV_PATH,
        GcsOp.uploadBlob DEV_PATH ("patient_data.csv")
          (.text (patientsCsv ps₁)) ("text/csv"),
        GcsOp.uploadBlob DEV_PATH ("ehr_data.json")
          (.text (joinNl us₁)) ("application/json"),
        GcsOp.uploadBlob DEV_PATH ("claims_data.parquet")
          (.bytes (writeParquet t₁)) ("application/octet-stream"),
        GcsOp.deleteFolder PROD_PATH,
        GcsOp.uploadBlob PROD_PATH ("patient_data.csv")
          (.text (patientsCsv ps₂)) ("text/csv"),
        GcsOp.uploadBlob PROD_PATH ("ehr_data.json")
          (.text (joinNl us₂)) ("application/json"),
        GcsOp.uploadBlob PROD_PATH ("claims_data.parquet")
          (.bytes (writeParquet t₂)) ("application/octet-stream")],
       .ok g6) ∧
    runMainWith okFailEhrUpload env n₁ n₂ g =
      ([GcsOp.createBucket, GcsOp.deleteFolder DEV_PATH,
        GcsOp.uploadBlob DEV_PATH ("patient_data.csv")
          (.text (patientsCsv ps₁)) ("text/csv")],
       .error ("upload failed")) ∧
    (∀ (env' : Env) (g0 : GenState), generate_patients env' n₁ g0 = none →
      runMainWith okAll env' n₁ n₂ g0 =
        ([GcsOp.createBucket, GcsOp.deleteFolder DEV_PATH],
         .error ("generation failed"))) := by
  refine ⟨?_, ?_, ?_⟩
  · simp [runMainWith, onePass, empty_gcs_folder, create_bucket,
      upload_to_gcs, okNoBucket, hp₁, he₁, hc₁, hp₂, he₂, hc₂]
  · simp [runMainWith, onePass, empty_gcs_folder, create_bucket,
      upload_to_gcs, okFailEhrUpload, hp₁, he₁, hc₁, hp₂, he₂, hc₂]
  · intro env' g0 hnone
    simp [runMainWith, onePass, empty_gcs_folder, create_bucket,
      okAll, hnone]

set_option maxRecDepth 20000 in
/-- Witness for C8: the two error classes evaluated on the concrete
one-record, two-pass run, and the generation failure on the exhausted
unique pool. -/
theorem c8_witness :
    runMainWith okNoBucket wEnv 1 1 wG0 =
      ([GcsOp.deleteFolder DEV_PATH,
        GcsOp.uploadBlob DEV_PATH ("patient_data.csv")
          (.text (patientsCsv wP1.1)) ("text/csv"),
        GcsOp.uploadBlob DEV_PATH ("ehr_data.json")
          (.text (joinNl wE1.1)) ("application/json"),
        GcsOp.uploadBlob DEV_PATH ("claims_data.parquet")
          (.bytes (writeParquet wC1.1)) ("application/octet-stream"),
        GcsOp.deleteFolder PROD_PATH,
        GcsOp.uploadBlob PROD_PATH ("patient_data.csv")
          (.text (patientsCsv wP2.1)) ("text/csv"),
        GcsOp.uploadBlob PROD_PATH ("ehr_data.json")
          (.text (joinNl wE2.1)) ("application/json"),
        GcsOp.uploadBlob PROD_PATH ("claims_data.parquet")
          (.bytes (writeParquet wC2.1)) ("application/octet-stream")],
       .ok wC2.2) ∧
    runMainWith okFailEhrUpload wEnv 1 1 wG0 =
      ([GcsOp.createBucket, GcsOp.deleteFolder DEV_PATH,
        GcsOp.uploadBlob DEV_PATH ("patient_data.csv")
          (.text (patientsCsv wP1.1)) ("text/csv")],
       .error ("upload failed")) ∧
    runMainWith okAll wEnvConstU 1 1 wGBad =
      ([GcsOp.createBucket, GcsOp.deleteFolder DEV_PATH],
       .error ("generation failed")) := by
  obtain ⟨h1, h2, h3⟩ := c8_error_classes wEnv 1 1 wG0 wP1.1 wP1.2 wE1.1
    wE1.2 wC1.1 wC1.2 wP2.1 wP2.2 wE2.1 wE2.2 wC2.1 wC2.2
    rfl rfl rfl rfl rfl rfl
  exact ⟨h1, h2, h3 wEnvConstU wGBad rfl⟩

/-! ### The shared process-wide unique pool -/

/-- C10: all opaque identifiers — the patient ids of both passes and the
claim and provider ids of both passes — are drawn from the single
`fake.unique.uuid4` pool threaded through the whole run, so they are
pairwise distinct across the dev and prod passes of one program run. -/
theorem c10_process_wide_unique_ids (env : Env) (n₁ n₂ : Nat)
    (g : GenState) (ids : List String)
    (h : pipelineIds env n₁ n₂ g = some ids) : ids.Nodup := by
  unfold pipelineIds at h
  split at h
  · exact Option.noConfusion h
  · rename_i ps₁ g1 hp₁
    split at h
    · exact Option.noConfusion h
    · rename_i us₁ g2 he₁
      split at h
      · exact Option.noConfusion h
      · rename_i cs₁ g3 hcl₁
        split at h
        · exact Option.noConfusion h
        · rename_i ps₂ g4 hp₂
          split at h
          · exact Option.noConfusion h
          · rename_i us₂ g5 he₂
            split at h
            · exact Option.noConfusion h
            · rename_i cs₂ g6 hcl₂
              have hids : ps₁.map Patient.patient_id ++ claimIdsOf cs₁ ++
                  ps₂.map Patient.patient_id ++ claimIdsOf cs₂ = ids := by
                simpa using h
              rw [← hids]
              obtain ⟨_, hg1, hA, hAg, _⟩ :=
                generate_patients_spec env n₁ g ps₁ g1 hp₁
              obtain ⟨_, hg2, _⟩ := generate_ehr_with_spec env
                ehrDiagnosisCodes n₁ (ps₁.map Patient.patient_id) g1
                us₁ g2 he₁
              obtain ⟨_, hg3, hB, hBg, _⟩ := claimsLoop_ids_spec env n₁
                (ps₁.map Patient.patient_id) g2 cs₁ g3 hcl₁
              obtain ⟨_, hg4, hC, hCg, _⟩ :=
                generate_patients_spec env n₂ g3 ps₂ g4 hp₂
              obtain ⟨_, hg5, _⟩ := generate_ehr_with_spec env
                ehrDiagnosisCodes n₂ (ps₂.map Patient.patient_id) g4
                us₂ g5 he₂
              obtain ⟨_, _, hD, hDg, _⟩ := claimsLoop_ids_spec env n₂
                (ps₂.map Patient.patient_id) g5 cs₂ g6 hcl₂
              have hBA : ∀ i ∈ claimIdsOf cs₁,
                  i ∉ ps₁.map Patient.patient_id := by
                intro i hi hiA
                exact hBg i hi (by
                  rw [hg2, hg1]
                  exact List.mem_append_left _ (List.mem_reverse.mpr hiA))
              have hCA : ∀ i ∈ ps₂.map Patient.patient_id,
                  i ∉ ps₁.map Patient.patient_id := by
                intro i hi hiA
                exact hCg i hi (by
                  rw [hg3, hg2, hg1]
                  exact List.mem_append_right _
                    (List.mem_append_left _ (List.mem_reverse.mpr hiA)))
              have hCB : ∀ i ∈ ps₂.map Patient.patient_id,
                  i ∉ claimIdsOf cs₁ := by
                intro i hi hiB
                exact hCg i hi (by
                  rw [hg3]
                  exact List.mem_append_left _ (List.mem_reverse.mpr hiB))
              have hDA : ∀ i ∈ claimIdsOf cs₂,
                  i ∉ ps₁.map Patient.patient_id := by
                intro i hi hiA
                exact hDg i hi (by
                  rw [hg5, hg4, hg3, hg2, hg1]
                  exact List.mem_append_right _ (List.mem_append_right _
                    (List.mem_append_left _ (List.mem_reverse.mpr hiA))))
              have hDB : ∀ i ∈ claimIdsOf cs₂, i ∉ claimIdsOf cs₁ := by
                intro i hi hiB
                exact hDg i hi (by
                  rw [hg5, hg4, hg3]
                  exact List.mem_append_right _
                    (List.mem_append_left _ (List.mem_reverse.mpr hiB)))
              have hDC : ∀ i ∈ claimIdsOf cs₂,
                  i ∉ ps₂.map Patient.patient_id := by
                intro i hi hiC
                exact hDg i hi (by
                  rw [hg5, hg4]
                  exact List.mem_append_left _ (List.mem_reverse.mpr hiC))
              refine ((hA.append hB ?_).append hC ?_).append hD ?_
              · intro a haA haB
                exact hBA a haB haA
              · intro a hab haC
                rcases List.mem_append.mp hab with hx | hx
                · exact hCA a haC hx
                · exact hCB a haC hx
              · intro a habc haD
                rcases List.mem_append.mp habc with hab | hx
                · rcases List.mem_append.mp hab with hy | hy
                  · exact hDA a haD hy
                  · exact hDB a haD hy
                · exact hDC a haD hx

/-- Witness for C10 at the concrete two-record, two-pass run. -/
theorem c10_witness : wIds22.Nodup :=
  c10_process_wide_unique_ids wEnv 2 2 wG0 wIds22 rfl

end HealthPipeline
